import Mathlib

/-!
Verification of the Risk dice-battle core.

The battle engine of the repository lives in two TypeScript services:

* `src/services/BattleService.ts` — dice rolling, pairwise comparison of
  sorted dice, loss computation, round execution and whole-battle
  simulation;
* `src/services/GameService.ts` — the battle/army state machine: army-count
  bookkeeping, terminal detection and winner determination.

The embedding below translates those services into Lean.  JavaScript
numbers are modelled as rationals (every value the engine manipulates is
produced by exact operations — comparisons, `Math.min`, integer loop
counters, subtraction of small integers — so the rational model agrees
with the double-precision source on all inputs considered here).  The
random source `Math.random` is modelled as an explicit stream
`rng : Nat -> Rat` of samples, each expected in `[0, 1)`.  Thrown
exceptions are modelled with `Except String`.
-/

namespace Risk

/-- Which side wins a compared pair of dice (the string union
`"attacker" | "defender"` of the source). -/
inductive Side where
  | attacker
  | defender
deriving DecidableEq, Repr

/-- One entry of the `comparisons` array built by
`BattleService.compareDice`. -/
structure Comparison where
  attackerDie : ℤ
  defenderDie : ℤ
  winner : Side
deriving DecidableEq, Repr

/-- The `DiceComparisonResult` interface of `BattleService.ts`. -/
structure DiceComparisonResult where
  attackerDice : List ℤ
  defenderDice : List ℤ
  attackerLosses : ℕ
  defenderLosses : ℕ
  comparisons : List Comparison
deriving DecidableEq, Repr

/-- `BattleService.rollDie`: `Math.floor(Math.random() * 6) + 1`, with the
random sample `r` passed explicitly. -/
def rollDie (r : ℚ) : ℤ :=
  ⌊r * 6⌋ + 1

/-- Number of iterations of the JavaScript loop
`for (let i = 0; i = 0, 1, 2, ...; i < count)` for a numeric bound
`count` : the least natural number not below `count`.
`forLoopTripCount_iterates` below proves this is exactly the loop
semantics: iteration `i` runs iff `i < count`. -/
def forLoopTripCount (count : ℚ) : ℕ :=
  ⌈count⌉₊

/-- The descending sort `dice.sort((a, b) => b - a)` of
`BattleService.rollDice`.  The comparator orders `a` before `b` iff
`b ≤ a`; a stable sort with that comparator is insertion sort with the
relation `fun a b => b ≤ a`. -/
def sortDesc (l : List ℤ) : List ℤ :=
  List.insertionSort (fun a b => b ≤ a) l

/-- `BattleService.rollDice`: roll a die for each loop iteration and sort
the results in descending order.  `rng i` is the `Math.random()` sample
of iteration `i`. -/
def rollDice (count : ℚ) (rng : ℕ → ℚ) : List ℤ :=
  sortDesc ((List.range (forLoopTripCount count)).map (fun i => rollDie (rng i)))

/-- `BattleService.getAttackerDiceCount`: `Math.min(armies, 3)`. -/
def getAttackerDiceCount (armies : ℚ) : ℚ :=
  min armies 3

/-- `BattleService.getDefenderDiceCount`: `Math.min(armies, 2)`. -/
def getDefenderDiceCount (armies : ℚ) : ℚ :=
  min armies 2

/-- `BattleService.compareDice`: compare the two dice lists position by
position for `min` of the lengths positions (`List.zip` pairs exactly the
positions `i < min` of the source's `for` loop), the attacker winning a
pair iff its die is strictly greater; each defender-won pair increments
`attackerLosses`, each attacker-won pair increments `defenderLosses`. -/
def compareDice (attackerDice defenderDice : List ℤ) : DiceComparisonResult :=
  let comparisons := (attackerDice.zip defenderDice).map (fun p =>
    { attackerDie := p.1
      defenderDie := p.2
      winner := if p.1 > p.2 then Side.attacker else Side.defender })
  { attackerDice := attackerDice
    defenderDice := defenderDice
    attackerLosses := comparisons.countP (fun c => decide (c.winner = Side.defender))
    defenderLosses := comparisons.countP (fun c => decide (c.winner = Side.attacker))
    comparisons := comparisons }

/-- `BattleService.executeBattleRound`: validate the army counts, derive
the dice counts, roll both sides (the attacker consumes its random
samples first, then the defender consumes the following ones) and compare.
A thrown `Error` is modelled as `Except.error` of its message. -/
def executeBattleRound (attackerArmies defenderArmies : ℚ) (rng : ℕ → ℚ) :
    Except String DiceComparisonResult :=
  if attackerArmies < 1 then
    .error ("Attacker must have at least 1 army")
  else if defenderArmies < 1 then
    .error ("Defender must have at least 1 army")
  else
    let attackerDiceCount := getAttackerDiceCount attackerArmies
    let defenderDiceCount := getDefenderDiceCount defenderArmies
    let attackerDice := rollDice attackerDiceCount rng
    let defenderDice := rollDice defenderDiceCount
      (fun i => rng (forLoopTripCount attackerDiceCount + i))
    .ok (compareDice attackerDice defenderDice)

/-- Result record of `BattleService.simulateCompleteBattle`. -/
structure BattleSimulation where
  rounds : List DiceComparisonResult
  winner : Side
  finalAttackerArmies : ℚ
  finalDefenderArmies : ℚ
deriving DecidableEq, Repr

/-- Random samples one call to `executeBattleRound` consumes:
the attacker's loop iterations plus the defender's. -/
def roundSampleCount (attackerArmies defenderArmies : ℚ) : ℕ :=
  forLoopTripCount (getAttackerDiceCount attackerArmies) +
    forLoopTripCount (getDefenderDiceCount defenderArmies)

/-- The `while (attackerArmies >= 1 && defenderArmies > 0)` loop of
`BattleService.simulateCompleteBattle`, indexed by fuel: `none` means the
fuel ran out before the guard failed, `some` is the loop's outcome (an
uncaught exception from `executeBattleRound`, or the final record). -/
def simulateGo (fuel : ℕ) (attackerArmies defenderArmies : ℚ) (rng : ℕ → ℚ)
    (rounds : List DiceComparisonResult) : Option (Except String BattleSimulation) :=
  if 1 ≤ attackerArmies ∧ 0 < defenderArmies then
    match fuel with
    | 0 => none
    | fuel + 1 =>
      match executeBattleRound attackerArmies defenderArmies rng with
      | .error e => some (.error e)
      | .ok result =>
        simulateGo fuel (attackerArmies - result.attackerLosses)
          (defenderArmies - result.defenderLosses)
          (fun i => rng (roundSampleCount attackerArmies defenderArmies + i))
          (rounds ++ [result])
  else
    some (.ok
      { rounds := rounds
        winner := if defenderArmies = 0 then Side.attacker else Side.defender
        finalAttackerArmies := attackerArmies
        finalDefenderArmies := defenderArmies })

/-- `BattleService.simulateCompleteBattle`, with explicit fuel bounding
the number of loop iterations. -/
def simulateCompleteBattle (fuel : ℕ) (initialAttackerArmies initialDefenderArmies : ℚ)
    (rng : ℕ → ℚ) : Option (Except String BattleSimulation) :=
  simulateGo fuel initialAttackerArmies initialDefenderArmies rng []

/-- The `Player` interface (name, color, colorName) consumed by
`GameService`. -/
structure Player where
  name : String
  color : String
  colorName : String
deriving DecidableEq, Repr

/-- The `BattlePlayer` interface of `GameService.ts`. -/
structure BattlePlayer where
  playerIndex : ℕ
  name : String
  color : String
  colorName : String
  armies : ℚ
  initialArmies : ℚ
  page : ℕ
deriving DecidableEq, Repr

/-- The `GameServiceState` interface of `GameService.ts`. -/
structure GameServiceState where
  players : List Player
  currentScreen : String
  attacker : Option BattlePlayer
  defender : Option BattlePlayer
  isGameActive : Bool
deriving DecidableEq, Repr

/-- `GameService.updateArmyCounts`: throw when either combatant is unset,
otherwise subtract the losses from both army counts. -/
def updateArmyCounts (st : GameServiceState) (attackerLoss defenderLoss : ℚ) :
    Except String GameServiceState :=
  match st.attacker, st.defender with
  | some atk, some dfd =>
    .ok { st with
      attacker := some { atk with armies := atk.armies - attackerLoss }
      defender := some { dfd with armies := dfd.armies - defenderLoss } }
  | _, _ => .error ("Invalid battle state")

/-- `GameService.isBattleOver`: false when either combatant is unset,
otherwise `attacker.armies < 1 || defender.armies === 0`. -/
def isBattleOver (st : GameServiceState) : Bool :=
  match st.attacker, st.defender with
  | some atk, some dfd => decide (atk.armies < 1) || decide (dfd.armies = 0)
  | _, _ => false

/-- `GameService.getBattleWinner`: `null` unless the battle is over and
both combatants are set; then `attacker` iff the defender's armies are
exactly 0, else `defender`. -/
def getBattleWinner (st : GameServiceState) : Option Side :=
  if isBattleOver st then
    match st.attacker, st.defender with
    | some _, some dfd => if dfd.armies = 0 then some Side.attacker else some Side.defender
    | _, _ => none
  else
    none

instance : IsTotal ℤ (fun a b : ℤ => b ≤ a) :=
  ⟨fun a b => le_total b a⟩

instance : IsTrans ℤ (fun a b : ℤ => b ≤ a) :=
  ⟨fun _ _ _ h1 h2 => le_trans h2 h1⟩

/-- A concrete attacker used in concrete-input checks. -/
def overAttacker : BattlePlayer :=
  { playerIndex := 0, name := "A", color := "#ff0000", colorName := "red"
    armies := 3, initialArmies := 3, page := 0 }

/-- A concrete, already-eliminated defender (0 armies) used in
concrete-input checks. -/
def overDefender : BattlePlayer :=
  { playerIndex := 1, name := "B", color := "#0000ff", colorName := "blue"
    armies := 0, initialArmies := 2, page := 0 }

/-- A concrete game state whose battle is already over (defender at 0
armies). -/
def overState : GameServiceState :=
  { players := [], currentScreen := "battle"
    attacker := some overAttacker, defender := some overDefender
    isGameActive := true }

/-! ## Fidelity and helper lemmas -/

/-- The trip count is exactly the semantics of the source's counting
loop: iteration `i` runs iff `i < count`. -/
theorem forLoopTripCount_iterates (count : ℚ) (i : ℕ) :
    i < forLoopTripCount count ↔ (i : ℚ) < count :=
  Nat.lt_ceil

theorem length_sortDesc (l : List ℤ) : (sortDesc l).length = l.length :=
  List.length_insertionSort _ l

theorem sortDesc_perm (l : List ℤ) : (sortDesc l).Perm l :=
  List.perm_insertionSort _ l

theorem sorted_sortDesc (l : List ℤ) : (sortDesc l).Sorted (fun a b => b ≤ a) :=
  List.sorted_insertionSort _ l

/-- In a descending-sorted list every dropped (later) element is at most
every kept (earlier) element. -/
theorem sorted_drop_le_take {l : List ℤ} (h : l.Sorted (fun a b => b ≤ a)) (n : ℕ) :
    ∀ x ∈ l.drop n, ∀ y ∈ l.take n, x ≤ y := by
  intro x hx y hy
  have h2 : List.Pairwise (fun a b : ℤ => b ≤ a) (l.take n ++ l.drop n) := by
    rw [List.take_append_drop]
    exact h
  exact (List.pairwise_append.mp h2).2.2 y hy x hx

theorem length_rollDice (count : ℚ) (rng : ℕ → ℚ) :
    (rollDice count rng).length = forLoopTripCount count := by
  simp [rollDice, length_sortDesc]

theorem mem_rollDice {x : ℤ} {count : ℚ} {rng : ℕ → ℚ} (hx : x ∈ rollDice count rng) :
    ∃ i, x = rollDie (rng i) := by
  rw [rollDice] at hx
  have hx2 := (sortDesc_perm _).mem_iff.mp hx
  obtain ⟨i, _, rfl⟩ := List.mem_map.mp hx2
  exact ⟨i, rfl⟩

theorem sorted_rollDice (count : ℚ) (rng : ℕ → ℚ) :
    (rollDice count rng).Sorted (fun a b => b ≤ a) :=
  sorted_sortDesc _

/-- A die produced from a random sample in `[0, 1)` is in `[1, 6]`. -/
theorem rollDie_bounds {r : ℚ} (h0 : 0 ≤ r) (h1 : r < 1) :
    1 ≤ rollDie r ∧ rollDie r ≤ 6 := by
  constructor
  · have hf : (0:ℤ) ≤ ⌊r * 6⌋ := Int.floor_nonneg.mpr (by linarith)
    simp only [rollDie]
    omega
  · have hf : ⌊r * 6⌋ < (6:ℤ) := Int.floor_lt.mpr (by push_cast; linarith)
    simp only [rollDie]
    omega

theorem compareDice_comparisons (attackerDice defenderDice : List ℤ) :
    (compareDice attackerDice defenderDice).comparisons =
      (attackerDice.zip defenderDice).map (fun p =>
        { attackerDie := p.1
          defenderDie := p.2
          winner := if p.1 > p.2 then Side.attacker else Side.defender }) :=
  rfl

theorem compareDice_attackerDice (attackerDice defenderDice : List ℤ) :
    (compareDice attackerDice defenderDice).attackerDice = attackerDice :=
  rfl

theorem compareDice_defenderDice (attackerDice defenderDice : List ℤ) :
    (compareDice attackerDice defenderDice).defenderDice = defenderDice :=
  rfl

theorem length_compareDice_comparisons (attackerDice defenderDice : List ℤ) :
    (compareDice attackerDice defenderDice).comparisons.length =
      min attackerDice.length defenderDice.length := by
  simp [compareDice_comparisons]

/-- Every comparison is won by exactly one side, so the two loss counters
always add up to the number of comparisons. -/
theorem countP_winner_split (l : List Comparison) :
    l.countP (fun c => decide (c.winner = Side.defender)) +
      l.countP (fun c => decide (c.winner = Side.attacker)) = l.length := by
  induction l with
  | nil => rfl
  | cons c l ih =>
    rcases hc : c.winner <;> simp [List.countP_cons, hc] <;> omega

theorem compareDice_losses_sum (attackerDice defenderDice : List ℤ) :
    (compareDice attackerDice defenderDice).attackerLosses +
        (compareDice attackerDice defenderDice).defenderLosses =
      (compareDice attackerDice defenderDice).comparisons.length :=
  countP_winner_split _

theorem attackerLosses_le_comparisons (attackerDice defenderDice : List ℤ) :
    (compareDice attackerDice defenderDice).attackerLosses ≤
      (compareDice attackerDice defenderDice).comparisons.length :=
  List.countP_le_length _

theorem defenderLosses_le_comparisons (attackerDice defenderDice : List ℤ) :
    (compareDice attackerDice defenderDice).defenderLosses ≤
      (compareDice attackerDice defenderDice).comparisons.length :=
  List.countP_le_length _

/-- When both army counts pass validation, `executeBattleRound` compares
freshly rolled dice. -/
theorem executeBattleRound_eq_ok (attackerArmies defenderArmies : ℚ) (rng : ℕ → ℚ)
    (ha : ¬ attackerArmies < 1) (hd : ¬ defenderArmies < 1) :
    executeBattleRound attackerArmies defenderArmies rng =
      .ok (compareDice (rollDice (getAttackerDiceCount attackerArmies) rng)
        (rollDice (getDefenderDiceCount defenderArmies)
          (fun i => rng (forLoopTripCount (getAttackerDiceCount attackerArmies) + i)))) := by
  simp [executeBattleRound, ha, hd]

theorem attacker_trip_natCast (a : ℕ) :
    forLoopTripCount (getAttackerDiceCount (a : ℚ)) = min a 3 := by
  have h : getAttackerDiceCount (a : ℚ) = ((min a 3 : ℕ) : ℚ) := by
    rw [getAttackerDiceCount, Nat.cast_min]
    norm_num
  rw [h, forLoopTripCount, Nat.ceil_natCast]

theorem defender_trip_natCast (d : ℕ) :
    forLoopTripCount (getDefenderDiceCount (d : ℚ)) = min d 2 := by
  have h : getDefenderDiceCount (d : ℚ) = ((min d 2 : ℕ) : ℚ) := by
    rw [getDefenderDiceCount, Nat.cast_min]
    norm_num
  rw [h, forLoopTripCount, Nat.ceil_natCast]

/-! ## Claim theorems -/

/-- C1: in `compareDice` a compared pair is won by the attacker iff the
attacker's die is strictly greater than the defender's; on equality the
defender wins the pair; `attackerLosses` counts exactly the pairs the
defender won and `defenderLosses` exactly the pairs the attacker won (one
army per pair). -/
theorem battle_pair_tiebreak (attackerDice defenderDice : List ℤ) :
    (∀ c ∈ (compareDice attackerDice defenderDice).comparisons,
        (c.winner = Side.attacker ↔ c.defenderDie < c.attackerDie) ∧
        (c.winner = Side.defender ↔ c.attackerDie ≤ c.defenderDie)) ∧
    (compareDice attackerDice defenderDice).attackerLosses =
      ((compareDice attackerDice defenderDice).comparisons.filter
        (fun c => decide (c.winner = Side.defender))).length ∧
    (compareDice attackerDice defenderDice).defenderLosses =
      ((compareDice attackerDice defenderDice).comparisons.filter
        (fun c => decide (c.winner = Side.attacker))).length := by
  refine ⟨?_, List.countP_eq_length_filter _ _, List.countP_eq_length_filter _ _⟩
  intro c hc
  rw [compareDice_comparisons] at hc
  obtain ⟨p, _, rfl⟩ := List.mem_map.mp hc
  dsimp only
  by_cases h : p.2 < p.1
  · rw [if_pos h]
    constructor
    · simp [h]
    · simp [h, not_le.mpr h]
  · rw [if_neg h]
    constructor
    · simp [h]
    · simp [not_lt.mp h]

/-- C3: the attacker's dice count is `min(armies, 3)` and the defender's
is `min(armies, 2)`, as pure functions of the army counts alone; and in a
validated round with natural army counts the rolled dice lists have
exactly those lengths. -/
theorem dice_count_caps :
    (∀ armies : ℚ, getAttackerDiceCount armies = min armies 3) ∧
    (∀ armies : ℚ, getDefenderDiceCount armies = min armies 2) ∧
    (∀ (attackerArmies defenderArmies : ℕ) (rng : ℕ → ℚ),
      1 ≤ attackerArmies → 1 ≤ defenderArmies →
      ∃ r, executeBattleRound (attackerArmies : ℚ) (defenderArmies : ℚ) rng = .ok r ∧
        r.attackerDice.length = min attackerArmies 3 ∧
        r.defenderDice.length = min defenderArmies 2) := by
  refine ⟨fun _ => rfl, fun _ => rfl, ?_⟩
  intro attackerArmies defenderArmies rng ha hd
  have hna : ¬ ((attackerArmies : ℚ) < 1) := not_lt.mpr (by exact_mod_cast ha)
  have hnd : ¬ ((defenderArmies : ℚ) < 1) := not_lt.mpr (by exact_mod_cast hd)
  refine ⟨_, executeBattleRound_eq_ok _ _ _ hna hnd, ?_, ?_⟩
  · rw [compareDice_attackerDice, length_rollDice, attacker_trip_natCast]
  · rw [compareDice_defenderDice, length_rollDice, defender_trip_natCast]

/-- C5: for every requested count of at least 1 and every stream of
random samples in `[0, 1)`, `rollDice` returns exactly `count` values,
each an integer in `[1, 6]`, sorted in descending order. -/
theorem rollDice_count_bounds_sorted (count : ℕ) (rng : ℕ → ℚ)
    (hcount : 1 ≤ count) (hrng : ∀ i, 0 ≤ rng i ∧ rng i < 1) :
    (rollDice (count : ℚ) rng).length = count ∧
    (∀ x ∈ rollDice (count : ℚ) rng, 1 ≤ x ∧ x ≤ 6) ∧
    (rollDice (count : ℚ) rng).Sorted (fun a b => b ≤ a) := by
  refine ⟨?_, ?_, sorted_rollDice _ _⟩
  · rw [length_rollDice, forLoopTripCount, Nat.ceil_natCast]
  · intro x hx
    obtain ⟨i, rfl⟩ := mem_rollDice hx
    exact rollDie_bounds (hrng i).1 (hrng i).2

/-- C6: `executeBattleRound` fails with an error iff the attacker's or
the defender's army count is below 1, and with both counts at least 1 it
returns a result without error. -/
theorem executeBattleRound_error_iff (attackerArmies defenderArmies : ℚ) (rng : ℕ → ℚ) :
    ((∃ e, executeBattleRound attackerArmies defenderArmies rng = .error e) ↔
      (attackerArmies < 1 ∨ defenderArmies < 1)) ∧
    (1 ≤ attackerArmies → 1 ≤ defenderArmies →
      ∃ r, executeBattleRound attackerArmies defenderArmies rng = .ok r) := by
  by_cases h1 : attackerArmies < 1
  · constructor
    · simp [executeBattleRound, h1]
    · intro ha _
      exact absurd h1 (not_lt.mpr ha)
  · by_cases h2 : defenderArmies < 1
    · constructor
      · simp [executeBattleRound, h1, h2]
      · intro _ hd
        exact absurd h2 (not_lt.mpr hd)
    · constructor
      · rw [executeBattleRound_eq_ok _ _ _ h1 h2]
        simp [h1, h2]
      · intro _ _
        exact ⟨_, executeBattleRound_eq_ok _ _ _ h1 h2⟩

/-- C2: a validated round compares exactly
`min(attackerDiceCount, defenderDiceCount)` pairs, the ignored excess
dice of either side are all at most the compared (highest) ones, and
`attackerLosses + defenderLosses` equals the number of compared pairs,
which is positive — no round produces zero total losses. -/
theorem round_loss_conservation (attackerArmies defenderArmies : ℕ) (rng : ℕ → ℚ)
    (ha : 1 ≤ attackerArmies) (hd : 1 ≤ defenderArmies) :
    ∃ r, executeBattleRound (attackerArmies : ℚ) (defenderArmies : ℚ) rng = .ok r ∧
      r.comparisons.length = min (min attackerArmies 3) (min defenderArmies 2) ∧
      r.attackerLosses + r.defenderLosses = min (min attackerArmies 3) (min defenderArmies 2) ∧
      0 < r.attackerLosses + r.defenderLosses ∧
      (∀ x ∈ r.attackerDice.drop r.comparisons.length,
        ∀ y ∈ r.attackerDice.take r.comparisons.length, x ≤ y) ∧
      (∀ x ∈ r.defenderDice.drop r.comparisons.length,
        ∀ y ∈ r.defenderDice.take r.comparisons.length, x ≤ y) := by
  have hna : ¬ ((attackerArmies : ℚ) < 1) := not_lt.mpr (by exact_mod_cast ha)
  have hnd : ¬ ((defenderArmies : ℚ) < 1) := not_lt.mpr (by exact_mod_cast hd)
  refine ⟨_, executeBattleRound_eq_ok _ _ _ hna hnd, ?_, ?_, ?_, ?_, ?_⟩
  · rw [length_compareDice_comparisons, length_rollDice, length_rollDice,
      attacker_trip_natCast, defender_trip_natCast]
  · rw [compareDice_losses_sum, length_compareDice_comparisons, length_rollDice,
      length_rollDice, attacker_trip_natCast, defender_trip_natCast]
  · rw [compareDice_losses_sum, length_compareDice_comparisons, length_rollDice,
      length_rollDice, attacker_trip_natCast, defender_trip_natCast]
    omega
  · rw [compareDice_attackerDice]
    exact sorted_drop_le_take (sorted_rollDice _ _) _
  · rw [compareDice_defenderDice]
    exact sorted_drop_le_take (sorted_rollDice _ _) _

/-- C10: in a validated round with integer army counts, each side loses
at most the number of compared pairs, which is at most its own army
count, so subtracting the losses never drives an army count below 0. -/
theorem round_losses_bounded (attackerArmies defenderArmies : ℤ) (rng : ℕ → ℚ)
    (r : DiceComparisonResult)
    (ha : 1 ≤ attackerArmies) (hd : 1 ≤ defenderArmies)
    (hr : executeBattleRound (attackerArmies : ℚ) (defenderArmies : ℚ) rng = .ok r) :
    r.attackerLosses ≤ r.comparisons.length ∧
    r.defenderLosses ≤ r.comparisons.length ∧
    (r.attackerLosses : ℤ) ≤ attackerArmies ∧
    (r.defenderLosses : ℤ) ≤ defenderArmies ∧
    0 ≤ (attackerArmies : ℚ) - r.attackerLosses ∧
    0 ≤ (defenderArmies : ℚ) - r.defenderLosses := by
  have hna : ¬ ((attackerArmies : ℚ) < 1) := not_lt.mpr (by exact_mod_cast ha)
  have hnd : ¬ ((defenderArmies : ℚ) < 1) := not_lt.mpr (by exact_mod_cast hd)
  rw [executeBattleRound_eq_ok _ _ _ hna hnd] at hr
  set A := rollDice (getAttackerDiceCount (attackerArmies : ℚ)) rng with hA
  set D := rollDice (getDefenderDiceCount (defenderArmies : ℚ))
    (fun i => rng (forLoopTripCount (getAttackerDiceCount (attackerArmies : ℚ)) + i)) with hD
  obtain rfl := Except.ok.inj hr
  have hlenA : A.length ≤ attackerArmies.toNat := by
    rw [hA, length_rollDice, forLoopTripCount]
    calc ⌈getAttackerDiceCount (attackerArmies : ℚ)⌉₊
        ≤ ⌈(attackerArmies : ℚ)⌉₊ := Nat.ceil_mono (min_le_left _ _)
      _ = attackerArmies.toNat := Nat.ceil_intCast _
  have hlenD : D.length ≤ defenderArmies.toNat := by
    rw [hD, length_rollDice, forLoopTripCount]
    calc ⌈getDefenderDiceCount (defenderArmies : ℚ)⌉₊
        ≤ ⌈(defenderArmies : ℚ)⌉₊ := Nat.ceil_mono (min_le_left _ _)
      _ = defenderArmies.toNat := Nat.ceil_intCast _
  have hLa : (compareDice A D).attackerLosses ≤ attackerArmies.toNat := by
    refine le_trans (attackerLosses_le_comparisons _ _) ?_
    rw [length_compareDice_comparisons]
    exact le_trans (min_le_left _ _) hlenA
  have hLd : (compareDice A D).defenderLosses ≤ defenderArmies.toNat := by
    refine le_trans (defenderLosses_le_comparisons _ _) ?_
    rw [length_compareDice_comparisons]
    exact le_trans (min_le_right _ _) hlenD
  have hZa : ((compareDice A D).attackerLosses : ℤ) ≤ attackerArmies := by omega
  have hZd : ((compareDice A D).defenderLosses : ℤ) ≤ defenderArmies := by omega
  refine ⟨attackerLosses_le_comparisons _ _, defenderLosses_le_comparisons _ _,
    hZa, hZd, ?_, ?_⟩
  · have hq : ((compareDice A D).attackerLosses : ℚ) ≤ (attackerArmies : ℚ) := by
      exact_mod_cast hZa
    linarith
  · have hq : ((compareDice A D).defenderLosses : ℚ) ≤ (defenderArmies : ℚ) := by
      exact_mod_cast hZd
    linarith

/-- C4: with both combatants set, the battle is over iff the attacker is
below 1 army or the defender is at exactly 0; when over, the winner is
the attacker iff the defender is at 0 and the defender otherwise; when
not over, the winner is null. -/
theorem terminal_conditions (st : GameServiceState) (atk dfd : BattlePlayer)
    (hatk : st.attacker = some atk) (hdfd : st.defender = some dfd) :
    (isBattleOver st = true ↔ (atk.armies < 1 ∨ dfd.armies = 0)) ∧
    (isBattleOver st = true →
      (getBattleWinner st = some Side.attacker ↔ dfd.armies = 0) ∧
      (getBattleWinner st = some Side.defender ↔ ¬ dfd.armies = 0)) ∧
    (isBattleOver st = false → getBattleWinner st = none) := by
  have hover : isBattleOver st = (decide (atk.armies < 1) || decide (dfd.armies = 0)) := by
    rw [isBattleOver, hatk, hdfd]
  refine ⟨?_, ?_, ?_⟩
  · rw [hover]
    simp
  · intro hbo
    have hw : getBattleWinner st =
        if dfd.armies = 0 then some Side.attacker else some Side.defender := by
      rw [getBattleWinner, hbo, if_pos rfl, hatk, hdfd]
    by_cases h0 : dfd.armies = 0 <;> simp [hw, h0]
  · intro hbo
    rw [getBattleWinner, hbo]
    simp

/-- C7 (amended): applying a round while the battle is already over does
not fail — `updateArmyCounts` performs no terminal-state check; whenever
both combatants are set it unconditionally subtracts the losses, even
with `isBattleOver` true. -/
theorem updateArmyCounts_over_still_mutates (st : GameServiceState)
    (atk dfd : BattlePlayer) (attackerLoss defenderLoss : ℚ)
    (hover : isBattleOver st = true)
    (hatk : st.attacker = some atk) (hdfd : st.defender = some dfd) :
    updateArmyCounts st attackerLoss defenderLoss =
      .ok { st with
        attacker := some { atk with armies := atk.armies - attackerLoss }
        defender := some { dfd with armies := dfd.armies - defenderLoss } } := by
  rw [updateArmyCounts, hatk, hdfd]

/-- C7 counterexample: on a state whose battle is over (defender at 0
armies), `updateArmyCounts` succeeds and mutates the army counts instead
of failing with a battle-already-over error. -/
theorem updateArmyCounts_while_over_check :
    isBattleOver overState = true ∧
    updateArmyCounts overState 1 1 =
      .ok { overState with
        attacker := some { overAttacker with armies := 2 }
        defender := some { overDefender with armies := -1 } } := by
  constructor
  · with_unfolding_all decide
  · with_unfolding_all rfl

/-- C8 (amended): `executeBattleRound` validates only that each army
count is at least 1; it performs no integrality check, so a non-integer
army count such as 2.5 is accepted and the round proceeds, rolling one
die per iteration of the dice loop (the ceiling of the capped count). -/
theorem executeBattleRound_no_integer_validation
    (attackerArmies defenderArmies : ℚ) (rng : ℕ → ℚ)
    (ha : 1 ≤ attackerArmies) (hd : 1 ≤ defenderArmies) :
    ∃ r, executeBattleRound attackerArmies defenderArmies rng = .ok r ∧
      r.attackerDice.length = forLoopTripCount (getAttackerDiceCount attackerArmies) ∧
      r.defenderDice.length = forLoopTripCount (getDefenderDiceCount defenderArmies) := by
  refine ⟨_, executeBattleRound_eq_ok _ _ _ (not_lt.mpr ha) (not_lt.mpr hd), ?_, ?_⟩
  · rw [compareDice_attackerDice, length_rollDice]
  · rw [compareDice_defenderDice, length_rollDice]

/-- C8 counterexample: a round with the non-integer attacker army count
2.5 does not fail — it proceeds, rolling ⌈min(2.5, 3)⌉ = 3 attacker
dice. -/
theorem executeBattleRound_noninteger_check :
    executeBattleRound (5/2) 1 (fun _ => 0) = .ok (compareDice [1, 1, 1] [1]) := by
  with_unfolding_all rfl

/-- A validated round between sides with at least one army each always
loses at least one army in total: both dice lists are nonempty, so at
least one pair is compared, and every compared pair costs one army. -/
theorem executeBattleRound_losses_pos (a d : ℚ) (rng : ℕ → ℚ)
    (ha : 1 ≤ a) (hd : 1 ≤ d) :
    1 ≤ (compareDice (rollDice (getAttackerDiceCount a) rng)
        (rollDice (getDefenderDiceCount d)
          (fun i => rng (forLoopTripCount (getAttackerDiceCount a) + i)))).attackerLosses +
      (compareDice (rollDice (getAttackerDiceCount a) rng)
        (rollDice (getDefenderDiceCount d)
          (fun i => rng (forLoopTripCount (getAttackerDiceCount a) + i)))).defenderLosses := by
  rw [compareDice_losses_sum, length_compareDice_comparisons, length_rollDice,
    length_rollDice]
  have h1 : 1 ≤ forLoopTripCount (getAttackerDiceCount a) :=
    Nat.one_le_ceil_iff.mpr (lt_min (by linarith) (by norm_num))
  have h2 : 1 ≤ forLoopTripCount (getDefenderDiceCount d) :=
    Nat.one_le_ceil_iff.mpr (lt_min (by linarith) (by norm_num))
  omega

/-- With integer army counts, `attackerArmies + defenderArmies` rounds of
fuel always suffice for the simulation loop to reach its exit condition:
each iteration costs at least one army in total. -/
theorem simulateGo_int_isSome :
    ∀ (n : ℕ) (a d : ℤ) (rng : ℕ → ℚ) (acc : List DiceComparisonResult),
      (a + d).toNat ≤ n → (simulateGo n (a : ℚ) (d : ℚ) rng acc).isSome = true := by
  intro n
  induction n with
  | zero =>
    intro a d rng acc h
    rw [simulateGo]
    split
    · rename_i hg
      have h1 : 1 ≤ a := by exact_mod_cast hg.1
      have h2 : 0 < d := by exact_mod_cast hg.2
      omega
    · rfl
  | succ n ih =>
    intro a d rng acc h
    rw [simulateGo]
    split
    · rename_i hg
      have h1 : 1 ≤ a := by exact_mod_cast hg.1
      have h2 : 0 < d := by exact_mod_cast hg.2
      have hqd : (1 : ℚ) ≤ (d : ℚ) := by exact_mod_cast h2
      have hna : ¬ ((a : ℚ) < 1) := not_lt.mpr hg.1
      have hnd : ¬ ((d : ℚ) < 1) := not_lt.mpr hqd
      rw [executeBattleRound_eq_ok _ _ _ hna hnd]
      set R := compareDice (rollDice (getAttackerDiceCount (a : ℚ)) rng)
        (rollDice (getDefenderDiceCount (d : ℚ))
          (fun i => rng (forLoopTripCount (getAttackerDiceCount (a : ℚ)) + i))) with hR
      show (simulateGo n ((a : ℚ) - R.attackerLosses) ((d : ℚ) - R.defenderLosses)
        (fun i => rng (roundSampleCount (a : ℚ) (d : ℚ) + i)) (acc ++ [R])).isSome = true
      have hsum : 1 ≤ R.attackerLosses + R.defenderLosses := by
        rw [hR]
        exact executeBattleRound_losses_pos _ _ rng hg.1 hqd
      have hcast1 : ((a : ℚ) - R.attackerLosses) = ((a - R.attackerLosses : ℤ) : ℚ) := by
        push_cast
        ring
      have hcast2 : ((d : ℚ) - R.defenderLosses) = ((d - R.defenderLosses : ℤ) : ℚ) := by
        push_cast
        ring
      rw [hcast1, hcast2]
      exact ih _ _ _ _ (by omega)
    · rfl

/-- C9: for all integer initial army counts with at least one army on
each side and any random stream, the battle simulation terminates — fuel
equal to the total initial army count is always enough for the while
loop to exit, because every round removes at least one army. -/
theorem simulateCompleteBattle_terminates (initialAttackerArmies initialDefenderArmies : ℤ)
    (rng : ℕ → ℚ)
    (ha : 1 ≤ initialAttackerArmies) (hd : 1 ≤ initialDefenderArmies) :
    (simulateCompleteBattle (initialAttackerArmies + initialDefenderArmies).toNat
      (initialAttackerArmies : ℚ) (initialDefenderArmies : ℚ) rng).isSome = true :=
  simulateGo_int_isSome _ _ _ rng [] le_rfl

/-! ## Concrete-input witnesses -/

/-- Witness for C2 at attacker 3, defender 2, all-zero random stream. -/
theorem round_loss_conservation_check :
    ∃ r, executeBattleRound ((3 : ℕ) : ℚ) ((2 : ℕ) : ℚ) (fun _ => 0) = .ok r ∧
      r.comparisons.length = min (min 3 3) (min 2 2) ∧
      r.attackerLosses + r.defenderLosses = min (min 3 3) (min 2 2) ∧
      0 < r.attackerLosses + r.defenderLosses ∧
      (∀ x ∈ r.attackerDice.drop r.comparisons.length,
        ∀ y ∈ r.attackerDice.take r.comparisons.length, x ≤ y) ∧
      (∀ x ∈ r.defenderDice.drop r.comparisons.length,
        ∀ y ∈ r.defenderDice.take r.comparisons.length, x ≤ y) :=
  round_loss_conservation 3 2 (fun _ => 0) (by decide) (by decide)

/-- Witness for C5 at count 2, all-zero random stream. -/
theorem rollDice_count_bounds_sorted_check :
    (rollDice ((2 : ℕ) : ℚ) (fun _ => 0)).length = 2 ∧
    (∀ x ∈ rollDice ((2 : ℕ) : ℚ) (fun _ => 0), 1 ≤ x ∧ x ≤ 6) ∧
    (rollDice ((2 : ℕ) : ℚ) (fun _ => 0)).Sorted (fun a b => b ≤ a) :=
  rollDice_count_bounds_sorted 2 (fun _ => 0) (by decide)
    (fun _ => ⟨le_refl 0, by norm_num⟩)

/-- Witness for C4 on the concrete over state. -/
theorem terminal_conditions_check :
    (isBattleOver overState = true ↔ (overAttacker.armies < 1 ∨ overDefender.armies = 0)) ∧
    (isBattleOver overState = true →
      (getBattleWinner overState = some Side.attacker ↔ overDefender.armies = 0) ∧
      (getBattleWinner overState = some Side.defender ↔ ¬ overDefender.armies = 0)) ∧
    (isBattleOver overState = false → getBattleWinner overState = none) :=
  terminal_conditions overState overAttacker overDefender rfl rfl

/-- Witness for amended C7 on the concrete over state. -/
theorem updateArmyCounts_over_still_mutates_check :
    updateArmyCounts overState 2 1 =
      .ok { overState with
        attacker := some { overAttacker with armies := overAttacker.armies - 2 }
        defender := some { overDefender with armies := overDefender.armies - 1 } } :=
  updateArmyCounts_over_still_mutates overState overAttacker overDefender 2 1
    (by with_unfolding_all decide) rfl rfl

/-- Witness for amended C8 at the non-integer attacker count 2.5. -/
theorem executeBattleRound_no_integer_validation_check :
    ∃ r, executeBattleRound (5/2) 1 (fun _ => 0) = .ok r ∧
      r.attackerDice.length = forLoopTripCount (getAttackerDiceCount (5/2)) ∧
      r.defenderDice.length = forLoopTripCount (getDefenderDiceCount 1) :=
  executeBattleRound_no_integer_validation (5/2) 1 (fun _ => 0) (by norm_num) (by norm_num)

/-- Witness for C9 at one army each, all-zero random stream. -/
theorem simulateCompleteBattle_terminates_check :
    (simulateCompleteBattle (((1 : ℤ) + 1).toNat) ((1 : ℤ) : ℚ) ((1 : ℤ) : ℚ)
      (fun _ => 0)).isSome = true :=
  simulateCompleteBattle_terminates 1 1 (fun _ => 0) (by decide) (by decide)

/-- Witness for C10 at attacker 3, defender 2, all-zero random stream. -/
theorem round_losses_bounded_check :
    (compareDice [1, 1, 1] [1, 1]).attackerLosses ≤
        (compareDice [1, 1, 1] [1, 1]).comparisons.length ∧
    (compareDice [1, 1, 1] [1, 1]).defenderLosses ≤
        (compareDice [1, 1, 1] [1, 1]).comparisons.length ∧
    ((compareDice [1, 1, 1] [1, 1]).attackerLosses : ℤ) ≤ 3 ∧
    ((compareDice [1, 1, 1] [1, 1]).defenderLosses : ℤ) ≤ 2 ∧
    0 ≤ ((3 : ℤ) : ℚ) - (compareDice [1, 1, 1] [1, 1]).attackerLosses ∧
    0 ≤ ((2 : ℤ) : ℚ) - (compareDice [1, 1, 1] [1, 1]).defenderLosses :=
  round_losses_bounded 3 2 (fun _ => 0) (compareDice [1, 1, 1] [1, 1])
    (by decide) (by decide) (by with_unfolding_all rfl)

end Risk
